import Mathlib

/-!
Verification development for the `creodias_finder` query module
(`creodias_finder/query.py`).

The module builds a search URL for the EOData Finder API from structured
parameters (collection, start/end date, WKT geometry, extra filters), then
pages through the results accumulating features into a dictionary keyed by
feature id.

The definitions below are a shallow embedding of that code:

* Python `str` values are Lean `String`s and character-level operations work
  on `String.data` (lists of `Char`); Python compares and sorts strings by
  code points, which coincides with comparing the `Char` code points.
* Python exceptions become `Except PyErr` results; `PyErr` distinguishes the
  exception classes that the source can raise.
* `datetime.datetime` becomes `PyDateTime` with the same observable fields.
* The compiled regular expression of `_parse_date` is embedded exactly as the
  Python `re` module receives it.  The source builds the pattern with
  f-strings, so every `[0-9]{4}` / `[0-9]{2}` quantifier is consumed by the
  f-string formatter and the regex that is actually compiled is
  `^[0-9]4-[0-9]2-[0-9]2(T[0-9]2:[0-9]2:[0-9]2(\.[0-9]+)?(|Z|[\+\-][0-9]2:[0-9]2))?$`
  (a digit followed by the literal character `4` or `2`, and so on).  The
  matcher `dateRegexCode` below implements that compiled pattern, including
  the `$` tolerance for one trailing newline.  `dateRegexSpec` implements the
  pattern the specification describes (`YYYY-MM-DD` with optional
  `THH:MM:SS[.fraction][Z|+-HH:MM]`), for comparison.
* The HTTP layer is a black box: a run of the pagination loop is parameterised
  by the sequence of successfully decoded page bodies (`pages : Nat → Page`),
  and the loop also returns the trace of page URLs it requested.
-/

/-- Exception classes raised by the source module.  `valueError` models
`ValueError`, `requestError` models the module's own `RequestError`, and
`typeError` models `TypeError` raised by the Python runtime itself. -/
inductive PyErr where
  | valueError (msg : String)
  | requestError (msg : String)
  | typeError (msg : String)
deriving DecidableEq, Repr

/-- Whitespace as matched by Python's `\s` (and stripped by `str.strip`):
the ASCII whitespace characters together with the Latin-1 and Unicode
whitespace code points. -/
def isPySpace (c : Char) : Bool :=
  c.toNat = 32 ∨ (9 ≤ c.toNat ∧ c.toNat ≤ 13) ∨ (28 ≤ c.toNat ∧ c.toNat ≤ 31) ∨
  c.toNat = 133 ∨ c.toNat = 160 ∨ c.toNat = 5760 ∨
  (8192 ≤ c.toNat ∧ c.toNat ≤ 8202) ∨ c.toNat = 8232 ∨ c.toNat = 8233 ∨
  c.toNat = 8239 ∨ c.toNat = 8287 ∨ c.toNat = 12288

/-- Decimal digit, as matched by the character class `[0-9]`. -/
def isDigitCh (c : Char) : Bool :=
  48 ≤ c.toNat ∧ c.toNat ≤ 57

/-- Matcher for the tail `(|Z|[\+\-][0-9]2:[0-9]2)` of the compiled regex:
empty, a literal `Z`, or a sign followed by digit, literal `2`, colon, digit,
literal `2`. -/
def tzCode : List Char → Bool
  | [] => true
  | ['Z'] => true
  | [s, d1, '2', ':', d2, '2'] => (s = '+' ∨ s = '-') ∧ isDigitCh d1 ∧ isDigitCh d2
  | _ => false

/-- Matcher for `(\.[0-9]+)?` followed by the timezone tail of the compiled
regex.  The fraction, when present, greedily consumes all digits; no timezone
alternative starts with a digit, so the greedy match is exact. -/
def fracCode (l : List Char) : Bool :=
  match l with
  | '.' :: rest => !(rest.takeWhile isDigitCh).isEmpty ∧ tzCode (rest.dropWhile isDigitCh)
  | _ => tzCode l

/-- Matcher for the optional time group `(T[0-9]2:[0-9]2:[0-9]2...)?` of the
compiled regex. -/
def timeCode : List Char → Bool
  | [] => true
  | 'T' :: d1 :: '2' :: ':' :: d2 :: '2' :: ':' :: d3 :: '2' :: rest =>
      isDigitCh d1 ∧ isDigitCh d2 ∧ isDigitCh d3 ∧ fracCode rest
  | _ => false

/-- Matcher for the full compiled regex body
`[0-9]4-[0-9]2-[0-9]2` followed by the optional time group. -/
def dateCode : List Char → Bool
  | d1 :: '4' :: '-' :: d2 :: '2' :: '-' :: d3 :: '2' :: rest =>
      isDigitCh d1 ∧ isDigitCh d2 ∧ isDigitCh d3 ∧ timeCode rest
  | _ => false

/-- The regex check `_parse_date` actually performs: `pattern.match(date)` with
the compiled pattern, anchored by `^` and `$`; in Python `$` also matches just
before a single trailing newline. -/
def dateRegexCode (s : String) : Bool :=
  dateCode s.data ∨ (s.data.getLast? = some '\n' ∧ dateCode s.data.dropLast)

/-- Matcher for the timezone tail the specification describes:
empty, `Z`, or a sign followed by `HH:MM`. -/
def tzSpec : List Char → Bool
  | [] => true
  | ['Z'] => true
  | [s, h1, h2, ':', m1, m2] =>
      (s = '+' ∨ s = '-') ∧ isDigitCh h1 ∧ isDigitCh h2 ∧ isDigitCh m1 ∧ isDigitCh m2
  | _ => false

/-- Matcher for the optional fractional seconds the specification describes,
followed by its timezone tail. -/
def fracSpec (l : List Char) : Bool :=
  match l with
  | '.' :: rest => !(rest.takeWhile isDigitCh).isEmpty ∧ tzSpec (rest.dropWhile isDigitCh)
  | _ => tzSpec l

/-- Matcher for the optional `THH:MM:SS` group the specification describes. -/
def timeSpec : List Char → Bool
  | [] => true
  | 'T' :: h1 :: h2 :: ':' :: m1 :: m2 :: ':' :: s1 :: s2 :: rest =>
      isDigitCh h1 ∧ isDigitCh h2 ∧ isDigitCh m1 ∧ isDigitCh m2 ∧
      isDigitCh s1 ∧ isDigitCh s2 ∧ fracSpec rest
  | _ => false

/-- Matcher for the date pattern the specification describes: `YYYY-MM-DD`
optionally followed by `THH:MM:SS[.fraction][Z|+-HH:MM]`. -/
def dateSpec : List Char → Bool
  | y1 :: y2 :: y3 :: y4 :: '-' :: m1 :: m2 :: '-' :: d1 :: d2 :: rest =>
      isDigitCh y1 ∧ isDigitCh y2 ∧ isDigitCh y3 ∧ isDigitCh y4 ∧
      isDigitCh m1 ∧ isDigitCh m2 ∧ isDigitCh d1 ∧ isDigitCh d2 ∧ timeSpec rest
  | _ => false

/-- The ISO-8601 pattern check as written in the specification. -/
def dateRegexSpec (s : String) : Bool :=
  dateSpec s.data

/-- Model of `datetime.datetime`: the observable fields the source reads and
writes. -/
structure PyDateTime where
  year : Nat
  month : Nat
  day : Nat
  hour : Nat
  minute : Nat
  second : Nat
  microsecond : Nat
deriving DecidableEq, Repr

/-- Value passed for a date parameter of `query`: Python `None`, a string, or
a `datetime` object. -/
inductive DateArg where
  | absent
  | str (s : String)
  | dt (t : PyDateTime)
deriving DecidableEq, Repr

/-- Truthiness of a date argument, as tested by `if start_date:`.  `None` and
the empty string are falsy; every `datetime` object is truthy. -/
def DateArg.truthy : DateArg → Bool
  | .absent => false
  | .str s => s ≠ ""
  | .dt _ => true

/-- Model of `_parse_date`.  A `datetime` is returned unchanged; a string is
matched against the compiled regex and on success handed to the external
date-parsing capability `cap` (`dateutil.parser.parse`); on mismatch the
source raises `ValueError` with a message that was meant to interpolate the
value but is not an f-string, so the literal text `{date}` appears instead.
`pattern.match(None)` would raise `TypeError` inside the `re` module. -/
def parse_date (cap : String → PyDateTime) : DateArg → Except PyErr PyDateTime
  | .dt t => .ok t
  | .str s =>
      if dateRegexCode s then .ok (cap s)
      else .error (.valueError
        "Date {date} is not in a valid format. Use Datetime object or iso string")
  | .absent => .error (.typeError "expected string or bytes-like object")

/-- Gregorian leap-year rule, as used by `datetime.date`. -/
def isLeapYear (y : Nat) : Bool :=
  y % 4 = 0 ∧ (y % 100 ≠ 0 ∨ y % 400 = 0)

/-- Number of days in a month of the proleptic Gregorian calendar. -/
def daysInMonth (y m : Nat) : Nat :=
  if m = 2 then (if isLeapYear y then 29 else 28)
  else if m = 4 ∨ m = 6 ∨ m = 9 ∨ m = 11 then 30
  else 31

/-- Successor day in the proleptic Gregorian calendar. -/
def nextDay : Nat × Nat × Nat → Nat × Nat × Nat
  | (y, m, d) =>
      if d < daysInMonth y m then (y, m, d + 1)
      else if m < 12 then (y, m + 1, 1)
      else (y + 1, 1, 1)

/-- Advance a calendar date by `n` days. -/
def iterDays : Nat → Nat × Nat × Nat → Nat × Nat × Nat
  | 0, p => p
  | n + 1, p => iterDays n (nextDay p)

/-- Model of `datetime + timedelta(seconds = secs)` for a nonnegative number
of seconds: the seconds of the day advance and any overflow carries into the
calendar date; the microsecond field is untouched because the delta has no
microsecond part. -/
def addDelta (t : PyDateTime) (secs : Nat) : PyDateTime :=
  let tot := t.hour * 3600 + t.minute * 60 + t.second + secs
  let p := iterDays (tot / 86400) (t.year, t.month, t.day)
  { year := p.1, month := p.2.1, day := p.2.2,
    hour := tot % 86400 / 3600, minute := tot % 86400 % 3600 / 60,
    second := tot % 86400 % 60, microsecond := t.microsecond }

/-- Model of `_add_time`: when hour, minute and second are all zero the source
adds `timedelta(hours=23, minutes=59, seconds=59)` (86399 seconds), otherwise
it returns the timestamp unchanged. -/
def add_time (t : PyDateTime) : PyDateTime :=
  if t.hour = 0 ∧ t.minute = 0 ∧ t.second = 0 then addDelta t 86399 else t

/-- Decimal rendering of a number left-padded with zeros to width `w`, as the
format specifications `04d` and `02d` produce. -/
def padNum (w n : Nat) : String :=
  let s := toString n
  ⟨List.replicate (w - s.data.length) '0' ++ s.data⟩

/-- Model of `datetime.isoformat()` for a timezone-naive value:
`YYYY-MM-DDTHH:MM:SS`, with `.ffffff` appended only when the microsecond
field is nonzero. -/
def isoformat (t : PyDateTime) : String :=
  padNum 4 t.year ++ "-" ++ padNum 2 t.month ++ "-" ++ padNum 2 t.day ++ "T" ++
  padNum 2 t.hour ++ ":" ++ padNum 2 t.minute ++ ":" ++ padNum 2 t.second ++
  (if t.microsecond = 0 then "" else "." ++ padNum 6 t.microsecond)

example : dateRegexCode "2020-01-01" = false := by decide
example : dateRegexSpec "2020-01-01" = true := by decide
example : dateRegexCode "14-02-32" = true := by decide
example : dateRegexCode "14-02-32T12:52:32.5+02:02" = true := by decide
example : dateRegexSpec "2020-01-01T12:30:00.5+02:00" = true := by decide
example : isoformat ⟨2020, 1, 2, 3, 4, 5, 0⟩ = "2020-01-02T03:04:05" := by decide

/-- Model of Python `str.replace(old, new, count)` restricted to a nonempty
`old`, as a scan over the character list: at each position, if the remaining
budget `cnt` is positive and `old` is a prefix of the rest, the occurrence is
replaced and the scan continues after it, otherwise one character is kept.
The extra `fuel` argument only makes the recursion structural; every step
consumes at least one character, so `fuel = length of the list` never runs
out. -/
def pyReplaceFuel (old new : List Char) : Nat → Nat → List Char → List Char
  | _, _, [] => []
  | _, 0, l => l
  | 0, _, l => l
  | fuel + 1, cnt + 1, c :: rest =>
      if old.isPrefixOf (c :: rest) then
        new ++ pyReplaceFuel old new fuel cnt (List.drop (old.length - 1) rest)
      else
        c :: pyReplaceFuel old new fuel (cnt + 1) rest

/-- Python `s.replace(old, new)`: every non-overlapping occurrence is
replaced; the number of occurrences is at most the length of `s`, so a budget
of `length` replaces them all. -/
def pyReplace (s old new : String) : String :=
  ⟨pyReplaceFuel old.data new.data s.data.length s.data.length s.data⟩

/-- Python `s.replace(old, new, count)` with an explicit nonnegative count. -/
def pyReplaceN (s old new : String) (count : Nat) : String :=
  ⟨pyReplaceFuel old.data new.data s.data.length count s.data⟩

/-- Model of `_convert_wkt`: the chain
`geometry.replace(", ", ",").replace(" ", "", 1).replace(" ", "+")`.
The surrounding `try` never fires for a string argument, since `str.replace`
does not raise. -/
def convert_wkt (geometry : String) : String :=
  pyReplace (pyReplaceN (pyReplace geometry ", " ",") " " "" 1) " " "+"

/-- Model of Python `str.strip()`: remove leading and trailing whitespace. -/
def pyStrip (l : List Char) : List Char :=
  ((l.dropWhile isPySpace).reverse.dropWhile isPySpace).reverse

/-- The bracket test of `_parse_argvalue`:
`any(value.startswith(s[0]) and value.endswith(s[1]) for s in ["[]", "{}", "//", "()"])`.
Curly braces are written by code point (123 and 125). -/
def bracketCheck (v : List Char) : Bool :=
  (v.head? = some '[' ∧ v.getLast? = some ']') ∨
  (v.head? = some (Char.ofNat 123) ∧ v.getLast? = some (Char.ofNat 125)) ∨
  (v.head? = some '/' ∧ v.getLast? = some '/') ∨
  (v.head? = some '(' ∧ v.getLast? = some ')')

/-- Model of `re.sub(r"\s", r"\ ", value, re.M)`.  Two facts about the Python
call are embedded here.  First, `re.M` is passed positionally as the `count`
argument of `re.sub`, and `re.M == 8`, so at most the first 8 whitespace
characters are substituted.  Second, the replacement template `r"\ "` is the
literal two-character text backslash-space (backslash before a non-letter is
kept as is), so every substituted whitespace character - a tab as much as a
space - becomes backslash followed by a space. -/
def escapeWs : Nat → List Char → List Char
  | _, [] => []
  | 0, l => l
  | cnt + 1, c :: rest =>
      if isPySpace c then '\\' :: ' ' :: escapeWs cnt rest
      else c :: escapeWs (cnt + 1) rest

/-- Value passed for an extra filter: a string, a list/tuple whose elements
are kept in their `str()` rendering (only their rendering reaches the URL),
or a value of any other type. -/
inductive FilterValue where
  | str (s : String)
  | seq (xs : List String)
  | other
deriving DecidableEq, Repr

/-- Model of `_parse_argvalue`.  Strings are stripped; a stripped value
bracketed by one of `[]`, curly braces, `//`, `()` passes through, any other
string has its whitespace substituted by `re.sub` as modelled by `escapeWs`.
A two-element list or tuple is rendered as `[first,second]`; any other length
raises `ValueError`, as does any other type. -/
def parse_argvalue : FilterValue → Except PyErr String
  | .str s =>
      let v := pyStrip s.data
      if bracketCheck v then .ok ⟨v⟩ else .ok ⟨escapeWs 8 v⟩
  | .seq xs =>
      match xs with
      | [a, b] => .ok ("[" ++ a ++ "," ++ b ++ "]")
      | _ => .error (.valueError
          ("Invalid number of elements in list. Expected 2, received " ++ toString xs.length))
  | .other => .error (.valueError
      "Additional arguments can be either string or tuple/list of 2 values")

/-- Code-point lexicographic comparison of character lists; this is how
Python compares strings. -/
def charsLe : List Char → List Char → Bool
  | [], _ => true
  | _ :: _, [] => false
  | a :: as, b :: bs =>
      if a.toNat < b.toNat then true
      else if b.toNat < a.toNat then false
      else charsLe as bs

/-- Code-point lexicographic comparison of strings, Python's `<=` on `str`. -/
def strLe (a b : String) : Bool :=
  charsLe a.data b.data

/-- Decidable equality for `Except`, so that concrete runs can be settled by
`decide`. -/
instance {ε α : Type} [DecidableEq ε] [DecidableEq α] : DecidableEq (Except ε α) := fun x y =>
  match x, y with
  | .ok a, .ok b =>
      if h : a = b then .isTrue (h ▸ rfl) else .isFalse (fun he => h (Except.ok.inj he))
  | .error a, .error b =>
      if h : a = b then .isTrue (h ▸ rfl) else .isFalse (fun he => h (Except.error.inj he))
  | .ok _, .error _ => .isFalse (fun he => Except.noConfusion he)
  | .error _, .ok _ => .isFalse (fun he => Except.noConfusion he)

example : convert_wkt "POLYGON ((1 2, 3 4))" = "POLYGON((1+2,3+4))" := by decide
example : parse_argvalue (.str "hello world") = .ok "hello\\ world" := by decide
example : parse_argvalue (.str " [1,2] ") = .ok "[1,2]" := by decide
example : parse_argvalue (.seq ["1", "2"]) = .ok "[1,2]" := by decide
example : parse_argvalue (.seq ["1", "2", "3"]) = .error (.valueError
  "Invalid number of elements in list. Expected 2, received 3") := by decide

/-- The `API_URL` constant of the source. -/
def API_URL : String := "http://finder.creodias.eu/resto/api/collections/"

/-- The `MAX_RECORDS` constant of the source (fixed page size). -/
def MAX_RECORDS : Nat := 1000

/-- Model of `urljoin(API_URL, collection)` for the shape a collection name
takes (a relative reference without scheme, authority, slash or query): the
RFC 3986 merge replaces everything after the last slash of the base by the
reference.  `API_URL` ends in a slash, so this appends the collection name. -/
def urljoin (base ref : String) : String :=
  ⟨(base.data.reverse.dropWhile (fun c => c ≠ '/')).reverse ++ ref.data⟩

/-- Truthiness of an optional string parameter: `None` and the empty string
are falsy. -/
def optTruthy : Option String → Bool
  | none => false
  | some s => s ≠ ""

/-- The `&startDate=` fragment: empty when the argument is falsy, otherwise
the parsed date in ISO format. -/
def startFragment (cap : String → PyDateTime) (d : DateArg) : Except PyErr String :=
  if d.truthy then do
    let t ← parse_date cap d
    pure ("&startDate=" ++ isoformat t)
  else pure ""

/-- The `&completionDate=` fragment: empty when the argument is falsy,
otherwise the parsed date, adjusted by `_add_time`, in ISO format. -/
def endFragment (cap : String → PyDateTime) (d : DateArg) : Except PyErr String :=
  if d.truthy then do
    let t ← parse_date cap d
    pure ("&completionDate=" ++ isoformat (add_time t))
  else pure ""

/-- The `&geometry=` fragment: empty when the argument is falsy, otherwise
the WKT string reformatted by `_convert_wkt`. -/
def geomFragment (g : Option String) : String :=
  if optTruthy g then "&geometry=" ++ convert_wkt (g.getD "") else ""

/-- Model of `sorted(kwargs.items())`.  Python sorts the key/value pairs
lexicographically; keyword-argument keys are distinct, so only the keys
decide the order.  Insertion sort is stable, like Python's sort. -/
def sortFilters (l : List (String × FilterValue)) : List (String × FilterValue) :=
  List.insertionSort (fun p q => strLe p.1 q.1 = true) l

/-- The `&key=value` fragments appended by the filter loop, in list order;
the first value `_parse_argvalue` rejects aborts the whole build, exactly as
the raise inside the Python loop does. -/
def fragsOf : List (String × FilterValue) → Except PyErr String
  | [] => pure ""
  | p :: rest => do
      let v ← parse_argvalue p.2
      let restFrags ← fragsOf rest
      pure ("&" ++ p.1 ++ "=" ++ v ++ restFrags)

/-- The raw arguments of one `query` call. -/
structure QueryArgs where
  collection : Option String
  start_date : DateArg
  end_date : DateArg
  geometry : Option String
  kwargs : List (String × FilterValue)

/-- The part of the URL before the first parameter fragment:
`API_URL`, joined with the collection when that is truthy, then
`/search.json?`. -/
def baseOf (a : QueryArgs) : String :=
  (if optTruthy a.collection then urljoin API_URL (a.collection.getD "") else API_URL) ++
    "/search.json?"

/-- Model of the URL-building half of `query`: base, start date, end date,
geometry, sorted extra filters, and the trailing `&maxRecords=1000`, appended
in the order the source appends them. -/
def buildUrl (cap : String → PyDateTime) (a : QueryArgs) : Except PyErr String := do
  let sf ← startFragment cap a.start_date
  let ef ← endFragment cap a.end_date
  let ff ← fragsOf (sortFilters a.kwargs)
  pure (baseOf a ++ sf ++ ef ++ geomFragment a.geometry ++ ff ++
    "&maxRecords=" ++ toString MAX_RECORDS)

/-- Follows the words of the order claim of the specification: date
parameters first in fixed order, then the extra filters sorted
lexicographically by key, then the geometry, then the trailing max-records
fragment.  Written only to be compared with `buildUrl`. -/
def buildUrlClaimOrder (cap : String → PyDateTime) (a : QueryArgs) : Except PyErr String := do
  let sf ← startFragment cap a.start_date
  let ef ← endFragment cap a.end_date
  let ff ← fragsOf (sortFilters a.kwargs)
  pure (baseOf a ++ sf ++ ef ++ ff ++ geomFragment a.geometry ++
    "&maxRecords=" ++ toString MAX_RECORDS)

/-- One feature record of a page: its id and its remaining attributes,
carried opaquely. -/
structure Feature where
  id : String
  payload : String
deriving DecidableEq, Repr

/-- One decoded page body: `properties.itemsPerPage` and `features`. -/
structure Page where
  itemsPerPage : Nat
  features : List Feature
deriving DecidableEq, Repr

/-- The accumulated result: a Python dict as an insertion-ordered association
list with unique keys. -/
abbrev Dict := List (String × Feature)

/-- Model of `query_response[feature.id] = feature`: an existing key keeps
its position and gets the new value, a new key is appended at the end. -/
def dictInsert : Dict → String → Feature → Dict
  | [], k, v => [(k, v)]
  | e :: d, k, v => if e.1 = k then (k, v) :: d else e :: dictInsert d k v

/-- Merging one page: every feature is inserted into the dict keyed by its
id, in list order. -/
def mergeFeatures (d : Dict) (fs : List Feature) : Dict :=
  fs.foldl (fun d f => dictInsert d f.id f) d

/-- Dict lookup by key: the entry holding the key, if any. -/
def dictGet : Dict → String → Option Feature
  | [], _ => none
  | e :: d, k => if e.1 = k then some e.2 else dictGet d k

/-- The exception escaping the page-ceiling raise.  The source executes
`raise RequestError(f'The query is too large.')`, but its own
`RequestError.__init__` requires the two positional arguments
`(message, errors)`; constructing the exception with one argument therefore
fails, and what escapes is a `TypeError`, not the intended `RequestError`. -/
def ceilingError : PyErr :=
  .typeError "RequestError.init missing 1 required positional argument: errors"

/-- Model of the pagination loop `for page in range(1000)`.  The HTTP layer
is a black box: `pages i` is the decoded body answering the request for
`page=i+1`.  The first component is the trace of page URLs requested, in
order; the second is the accumulated dict, or the error escaping the loop.
The loop breaks on the first page reporting zero `itemsPerPage` (before the
ceiling check and before merging), raises at page index 999 otherwise, and
merges the page's features into the dict keyed by feature id.  `fuel` makes
the recursion structural; it starts at 1000, matching `range(1000)`. -/
def queryLoop (url : String) (pages : Nat → Page) :
    Nat → Nat → Dict → List String × Except PyErr Dict
  | 0, _, acc => ([], .ok acc)
  | fuel + 1, page, acc =>
      let urlPage := url ++ "&page=" ++ toString (page + 1)
      let data := pages page
      if data.itemsPerPage = 0 then ([urlPage], .ok acc)
      else if page = 999 then ([urlPage], .error ceilingError)
      else
        let r := queryLoop url pages fuel (page + 1) (mergeFeatures acc data.features)
        (urlPage :: r.1, r.2)

/-- The pagination half of `query`: the loop started at page index 0 with an
empty dict and the budget of `range(1000)`. -/
def queryPages (url : String) (pages : Nat → Page) : List String × Except PyErr Dict :=
  queryLoop url pages 1000 0 []

/-- The whole of `query`: build the URL, then page through the results.  A
URL-building error aborts before any request. -/
def query (cap : String → PyDateTime) (a : QueryArgs) (pages : Nat → Page) :
    List String × Except PyErr Dict :=
  match buildUrl cap a with
  | .error e => ([], .error e)
  | .ok url => queryPages url pages

example :
    buildUrl (fun _ => ⟨1, 1, 1, 0, 0, 0, 0⟩)
      ⟨some "Sentinel1", .str "14-02-32", .absent, none, []⟩ =
    .ok ("http://finder.creodias.eu/resto/api/collections/Sentinel1/search.json?" ++
      "&startDate=0001-01-01T00:00:00&maxRecords=1000") := by decide

example :
    queryPages "u" (fun i => if i = 0 then ⟨2, [⟨"a", "1"⟩, ⟨"b", "2"⟩]⟩ else ⟨0, []⟩) =
    (["u&page=1", "u&page=2"], .ok [("a", ⟨"a", "1"⟩), ("b", ⟨"b", "2"⟩)]) := by decide

/-- Claim C1 (code bug).  The source was meant to accept ISO strings - its
docstring says "either in iso formatted string or datetime object" - but the
pattern is built with f-strings, which consume the brace quantifiers, so the
compiled regex rejects every `YYYY-MM-DD` string: `_parse_date` raises
`ValueError` on `2020-01-01`, a string the specification pattern accepts,
while accepting strings like `14-02-32` that the specification pattern
rejects.  The raised message also fails to name the offending value: the
message is not an f-string either, so it contains the literal text `{date}`. -/
theorem parse_date_iso_bug (cap : String → PyDateTime) :
    parse_date cap (.str "2020-01-01") = .error (.valueError
      "Date {date} is not in a valid format. Use Datetime object or iso string") ∧
    dateRegexSpec "2020-01-01" = true ∧
    dateRegexCode "14-02-32" = true ∧ dateRegexSpec "14-02-32" = false := by
  refine ⟨?_, by decide, by decide, by decide⟩
  have h : dateRegexCode "2020-01-01" = false := by decide
  simp [parse_date, h]

/-- Claim C4 (corrected): on the specification's example input,
`_convert_wkt` removes the first space entirely - `replace(" ", "", 1)`
replaces it with the empty string, not with a plus - so the result is
`POLYGON((1+2,3+4))`. -/
theorem convert_wkt_example :
    convert_wkt "POLYGON ((1 2, 3 4))" = "POLYGON((1+2,3+4))" := by decide

/-- Claim C4, counterexample to the claim as stated: the output on the
example input is not `POLYGON+((1+2,3+4))`. -/
theorem convert_wkt_claim_counterexample :
    convert_wkt "POLYGON ((1 2, 3 4))" ≠ "POLYGON+((1+2,3+4))" := by decide

/-- Claim C8 (confirmed): `_add_time` maps a timestamp whose hour, minute and
second are all zero to the same calendar date at 23:59:59 (adding 86399
seconds to midnight never carries into the next day; the microsecond field
rides along unchanged), and returns every other timestamp unchanged. -/
theorem add_time_end_of_day (t : PyDateTime) :
    (t.hour = 0 ∧ t.minute = 0 ∧ t.second = 0 →
      add_time t = { t with hour := 23, minute := 59, second := 59 }) ∧
    (¬(t.hour = 0 ∧ t.minute = 0 ∧ t.second = 0) → add_time t = t) := by
  constructor
  · rintro ⟨h1, h2, h3⟩
    simp only [add_time, addDelta, h1, h2, h3]
    norm_num [iterDays]
  · intro h
    simp only [add_time, if_neg h]

/-- Claim C8, witness: a bare date is pushed to the end of its day, and a
timestamp already at 23:59:59 is left unchanged (so the adjustment is
idempotent). -/
theorem add_time_end_of_day_witness :
    add_time ⟨2020, 5, 17, 0, 0, 0, 0⟩ = ⟨2020, 5, 17, 23, 59, 59, 0⟩ ∧
    add_time ⟨2020, 5, 17, 23, 59, 59, 0⟩ = ⟨2020, 5, 17, 23, 59, 59, 0⟩ :=
  ⟨(add_time_end_of_day ⟨2020, 5, 17, 0, 0, 0, 0⟩).1 ⟨rfl, rfl, rfl⟩,
   (add_time_end_of_day ⟨2020, 5, 17, 23, 59, 59, 0⟩).2 (by decide)⟩

/-- Claim C10 (confirmed): every falsy argument is treated as absent.  With
collection, both dates and geometry all the empty string, every corresponding
fragment is omitted from the URL and no validation runs: the build succeeds
even though the empty string fails the date pattern check (third conjunct)
and would be rejected by `_parse_date` if it were ever checked (second
conjunct). -/
theorem query_falsy_args_omitted (cap : String → PyDateTime) :
    buildUrl cap ⟨some "", .str "", .str "", some "", []⟩ =
      .ok "http://finder.creodias.eu/resto/api/collections//search.json?&maxRecords=1000" ∧
    parse_date cap (.str "") = .error (.valueError
      "Date {date} is not in a valid format. Use Datetime object or iso string") ∧
    dateRegexCode "" = false :=
  ⟨rfl, rfl, rfl⟩

/-- Follows the words of the amended whitespace claim: walking the trimmed
value left to right, each whitespace character while the replacement budget
lasts becomes the two-character sequence backslash space, and once the budget
is spent the remainder is kept as it is.  Written only to be compared with
the `re.sub` model `escapeWs`. -/
def escapeWsSpec (budget : Nat) : List Char → List Char
  | [] => []
  | c :: rest =>
      if isPySpace c then
        match budget with
        | 0 => c :: rest
        | b + 1 => ['\\', ' '] ++ escapeWsSpec b rest
      else c :: escapeWsSpec budget rest

theorem escapeWsSpec_zero : ∀ l : List Char, escapeWsSpec 0 l = l
  | [] => rfl
  | c :: rest => by
      by_cases h : isPySpace c <;> simp [escapeWsSpec, h, escapeWsSpec_zero rest]

theorem escapeWs_eq_spec : ∀ (l : List Char) (n : Nat), escapeWs n l = escapeWsSpec n l
  | [], n => by cases n <;> rfl
  | c :: rest, 0 => by
      by_cases h : isPySpace c <;> simp [escapeWs, escapeWsSpec, h, escapeWsSpec_zero]
  | c :: rest, n + 1 => by
      by_cases h : isPySpace c <;>
        simp [escapeWs, escapeWsSpec, h, escapeWs_eq_spec rest]

/-- Claim C5 (corrected): for a string filter value, the trimmed value passes
through unchanged when bracketed; otherwise each whitespace character among
at most the first 8 is replaced by the two-character sequence backslash
space (not prefixed by a backslash preserving the character), and whitespace
beyond the eighth is left alone.  The bound 8 is `re.M` passed positionally
as the count argument of `re.sub`; the backslash-space text is the literal
replacement template `r"\ "`. -/
theorem parse_argvalue_escape (s : String) :
    (bracketCheck (pyStrip s.data) = true → parse_argvalue (.str s) = .ok ⟨pyStrip s.data⟩) ∧
    (bracketCheck (pyStrip s.data) = false →
      parse_argvalue (.str s) = .ok ⟨escapeWsSpec 8 (pyStrip s.data)⟩) := by
  constructor <;> intro h <;> simp [parse_argvalue, h, escapeWs_eq_spec]

/-- Claim C5, counterexample to the claim as stated: on a trimmed,
unbracketed value containing nine tabs, the code replaces only the first
eight whitespace characters and turns each of them into backslash space (the
tab itself is lost), so the result differs from prefixing every whitespace
character with a backslash. -/
theorem parse_argvalue_claim_counterexample :
    parse_argvalue (.str "a\t\t\t\t\t\t\t\t\tb") =
      .ok "a\\ \\ \\ \\ \\ \\ \\ \\ \tb" ∧
    parse_argvalue (.str "a\t\t\t\t\t\t\t\t\tb") ≠
      .ok "a\\\t\\\t\\\t\\\t\\\t\\\t\\\t\\\t\\\tb" := by
  constructor <;> decide

/-- Claim C5, witness: the specification's own example, an unbracketed value
with a single interior space. -/
theorem parse_argvalue_escape_witness :
    bracketCheck (pyStrip "hello world".data) = false ∧
    parse_argvalue (.str "hello world") = .ok "hello\\ world" := by
  refine ⟨by decide, ?_⟩
  have h := (parse_argvalue_escape "hello world").2 (by decide)
  rw [h]
  decide

theorem charsLe_head {a b : Char} {as bs : List Char}
    (h : charsLe (a :: as) (b :: bs) = true) :
    a.toNat < b.toNat ∨ (a.toNat = b.toNat ∧ charsLe as bs = true) := by
  simp only [charsLe] at h
  by_cases h1 : a.toNat < b.toNat
  · exact .inl h1
  · by_cases h2 : b.toNat < a.toNat
    · rw [if_neg h1, if_pos h2] at h
      exact absurd h (by simp)
    · rw [if_neg h1, if_neg h2] at h
      exact .inr ⟨by omega, h⟩

theorem charsLe_cons {a b : Char} {as bs : List Char}
    (h : a.toNat < b.toNat ∨ (a.toNat = b.toNat ∧ charsLe as bs = true)) :
    charsLe (a :: as) (b :: bs) = true := by
  simp only [charsLe]
  rcases h with h | ⟨h1, h2⟩
  · rw [if_pos h]
  · rw [if_neg (by omega), if_neg (by omega)]
    exact h2

theorem charsLe_total : ∀ a b : List Char, charsLe a b = true ∨ charsLe b a = true
  | [], _ => .inl rfl
  | _ :: _, [] => .inr rfl
  | a :: as, b :: bs => by
      rcases Nat.lt_trichotomy a.toNat b.toNat with h | h | h
      · exact .inl (charsLe_cons (.inl h))
      · rcases charsLe_total as bs with hc | hc
        · exact .inl (charsLe_cons (.inr ⟨h, hc⟩))
        · exact .inr (charsLe_cons (.inr ⟨h.symm, hc⟩))
      · exact .inr (charsLe_cons (.inl h))

theorem charsLe_trans : ∀ a b c : List Char,
    charsLe a b = true → charsLe b c = true → charsLe a c = true
  | [], _, _, _, _ => rfl
  | _ :: _, [], _, h1, _ => by simp [charsLe] at h1
  | _ :: _, _ :: _, [], _, h2 => by simp [charsLe] at h2
  | a :: as, b :: bs, c :: cs, h1, h2 => by
      rcases charsLe_head h1 with h1 | ⟨e1, t1⟩ <;>
        rcases charsLe_head h2 with h2 | ⟨e2, t2⟩
      · exact charsLe_cons (.inl (by omega))
      · exact charsLe_cons (.inl (by omega))
      · exact charsLe_cons (.inl (by omega))
      · exact charsLe_cons (.inr ⟨by omega, charsLe_trans as bs cs t1 t2⟩)

instance : IsTotal (String × FilterValue) (fun p q => strLe p.1 q.1 = true) :=
  ⟨fun p q => charsLe_total p.1.data q.1.data⟩

instance : IsTrans (String × FilterValue) (fun p q => strLe p.1 q.1 = true) :=
  ⟨fun p q r => charsLe_trans p.1.data q.1.data r.1.data⟩

/-- Fixed stand-in for the external date-parsing capability, used in the
concrete runs below; the dates it returns never matter there. -/
def capStub : String → PyDateTime := fun _ => ⟨1, 1, 1, 0, 0, 0, 0⟩

/-- Claim C7 (confirmed): the extra-filter fragments enter the URL sorted by
key in ascending code-point order - `sorted(kwargs.items())` is a key-sorted
permutation of the filters - and on the specification's example the built URL
contains `&a=y` before `&b=x`. -/
theorem filters_sorted_in_url :
    (∀ kw : List (String × FilterValue),
      (sortFilters kw).Pairwise (fun p q => strLe p.1 q.1 = true) ∧
      (sortFilters kw).Perm kw) ∧
    buildUrl capStub ⟨none, .absent, .absent, none, [("b", .str "x"), ("a", .str "y")]⟩ =
      .ok ("http://finder.creodias.eu/resto/api/collections//search.json?" ++
        "&a=y&b=x&maxRecords=1000") := by
  exact ⟨fun kw => ⟨List.sorted_insertionSort _ kw, List.perm_insertionSort _ kw⟩, by decide⟩

theorem exceptBind_ok {ε α β : Type} {x : Except ε α} {f : α → Except ε β} {b : β}
    (h : x >>= f = .ok b) : ∃ a, x = .ok a ∧ f a = .ok b := by
  cases x with
  | error e => simp [Bind.bind, Except.bind] at h
  | ok a => exact ⟨a, rfl, by simpa [Bind.bind, Except.bind] using h⟩

/-- Claim C6 (corrected): every successfully built URL decomposes as the base
part, then the date fragments in fixed order, then the geometry fragment,
then the filter fragments over a key-sorted permutation of the extra filters,
then the trailing max-records fragment.  The claim as stated placed the
sorted filters before the geometry; the source appends the geometry first. -/
theorem buildUrl_fragment_order (cap : String → PyDateTime) (a : QueryArgs) (u : String)
    (h : buildUrl cap a = .ok u) :
    ∃ sf ef ff ks,
      startFragment cap a.start_date = .ok sf ∧
      endFragment cap a.end_date = .ok ef ∧
      ks.Perm a.kwargs ∧ ks.Pairwise (fun p q => strLe p.1 q.1 = true) ∧
      fragsOf ks = .ok ff ∧
      u = baseOf a ++ sf ++ ef ++ geomFragment a.geometry ++ ff ++
        "&maxRecords=" ++ toString MAX_RECORDS := by
  unfold buildUrl at h
  obtain ⟨sf, hsf, h⟩ := exceptBind_ok h
  obtain ⟨ef, hef, h⟩ := exceptBind_ok h
  obtain ⟨ff, hff, h⟩ := exceptBind_ok h
  refine ⟨sf, ef, ff, sortFilters a.kwargs, hsf, hef,
    List.perm_insertionSort _ _, List.sorted_insertionSort _ _, hff, ?_⟩
  exact (Except.ok.inj h).symm

/-- Claim C6, counterexample to the claim as stated: with a geometry and one
filter, the source emits the geometry fragment before the filter fragment,
while the claimed order would emit the filters first; the two URLs differ. -/
theorem buildUrl_order_counterexample :
    buildUrl capStub
      ⟨none, .absent, .absent, some "POLYGON ((1 2, 3 4))", [("a", .str "y")]⟩ =
      .ok ("http://finder.creodias.eu/resto/api/collections//search.json?" ++
        "&geometry=POLYGON((1+2,3+4))&a=y&maxRecords=1000") ∧
    buildUrlClaimOrder capStub
      ⟨none, .absent, .absent, some "POLYGON ((1 2, 3 4))", [("a", .str "y")]⟩ =
      .ok ("http://finder.creodias.eu/resto/api/collections//search.json?" ++
        "&a=y&geometry=POLYGON((1+2,3+4))&maxRecords=1000") ∧
    ("http://finder.creodias.eu/resto/api/collections//search.json?" ++
        "&geometry=POLYGON((1+2,3+4))&a=y&maxRecords=1000" : String) ≠
      ("http://finder.creodias.eu/resto/api/collections//search.json?" ++
        "&a=y&geometry=POLYGON((1+2,3+4))&maxRecords=1000") := by
  exact ⟨by decide, by decide, by decide⟩

/-- Claim C6, witness: the decomposition at a concrete argument set with a
geometry and two unsorted filters. -/
theorem buildUrl_fragment_order_witness :
    ∃ sf ef ff ks,
      startFragment capStub DateArg.absent = .ok sf ∧
      endFragment capStub DateArg.absent = .ok ef ∧
      ks.Perm [("b", FilterValue.str "x"), ("a", FilterValue.str "y")] ∧
      ks.Pairwise (fun p q => strLe p.1 q.1 = true) ∧
      fragsOf ks = .ok ff ∧
      ("http://finder.creodias.eu/resto/api/collections//search.json?" ++
        "&geometry=POLYGON((1+2,3+4))&a=y&b=x&maxRecords=1000" : String) =
        baseOf ⟨none, .absent, .absent, some "POLYGON ((1 2, 3 4))",
          [("b", .str "x"), ("a", .str "y")]⟩ ++ sf ++ ef ++
        geomFragment (some "POLYGON ((1 2, 3 4))") ++ ff ++
        "&maxRecords=" ++ toString MAX_RECORDS :=
  buildUrl_fragment_order capStub
    ⟨none, .absent, .absent, some "POLYGON ((1 2, 3 4))",
      [("b", .str "x"), ("a", .str "y")]⟩
    ("http://finder.creodias.eu/resto/api/collections//search.json?" ++
      "&geometry=POLYGON((1+2,3+4))&a=y&b=x&maxRecords=1000")
    (by decide)

/-- Characterization of the loop when every page of the remaining window
reports nonzero items: every remaining page is requested and the ceiling
raise escapes. -/
theorem queryLoop_full (url : String) (pages : Nat → Page) :
    ∀ (fuel page : Nat) (acc : Dict), page + fuel = 1000 → 0 < fuel →
    (∀ i, page ≤ i → i < 1000 → (pages i).itemsPerPage ≠ 0) →
    queryLoop url pages fuel page acc =
      ((List.range' page fuel).map (fun i => url ++ "&page=" ++ toString (i + 1)),
       .error ceilingError) := by
  intro fuel
  induction fuel with
  | zero => intro page acc hsum hpos hnz; omega
  | succ fuel ih =>
      intro page acc hsum _ hnz
      have hlt : page < 1000 := by omega
      have hnz0 : ¬(pages page).itemsPerPage = 0 := hnz page le_rfl hlt
      by_cases h999 : page = 999
      · subst h999
        have hf : fuel = 0 := by omega
        subst hf
        simp [queryLoop, hnz0, List.range']
      · have ihe := ih (page + 1) (mergeFeatures acc (pages page).features)
          (by omega) (by omega) (fun i hi1 hi2 => hnz i (by omega) hi2)
        simp [queryLoop, hnz0, h999, ihe, List.range'_succ]

/-- Claim C2 (code bug in what is raised; the loop behaves as claimed).  When
all 1000 pages report nonzero items the loop issues exactly the 1000 requests
`page=1` to `page=1000` for indices 0 to 999, merges nothing from the last
page, returns no mapping, and an error escapes.  The error, however, is not
the intended `RequestError`: the source calls `RequestError` with one
argument while its own `__init__` requires `(message, errors)`, so the
construction itself fails with `TypeError` (see `ceilingError`). -/
theorem query_too_large_on_full_pages (url : String) (pages : Nat → Page)
    (hnz : ∀ i, i < 1000 → (pages i).itemsPerPage ≠ 0) :
    queryPages url pages =
      ((List.range 1000).map (fun i => url ++ "&page=" ++ toString (i + 1)),
       .error ceilingError) := by
  have h := queryLoop_full url pages 1000 0 [] (by omega) (by omega)
    (fun i _ hi => hnz i hi)
  rw [queryPages, h, List.range_eq_range']

/-- Claim C2, witness: a run over constant nonempty pages. -/
theorem query_too_large_on_full_pages_witness :
    queryPages "u" (fun _ => ⟨1, []⟩) =
      ((List.range 1000).map (fun i => "u" ++ "&page=" ++ toString (i + 1)),
       .error ceilingError) :=
  query_too_large_on_full_pages "u" (fun _ => ⟨1, []⟩) (fun i _ => by simp)

/-- Characterization of the loop when the first empty page of the window has
index `k`: pages up to `k` are requested, the loop stops at `k` without
merging anything from it, and the dict accumulates the earlier pages. -/
theorem queryLoop_stop (url : String) (pages : Nat → Page) :
    ∀ (fuel page : Nat) (acc : Dict) (k : Nat), page + fuel = 1000 →
    page ≤ k → k < 1000 → (pages k).itemsPerPage = 0 →
    (∀ i, page ≤ i → i < k → (pages i).itemsPerPage ≠ 0) →
    queryLoop url pages fuel page acc =
      ((List.range' page (k - page + 1)).map (fun i => url ++ "&page=" ++ toString (i + 1)),
       .ok ((List.range' page (k - page)).foldl
         (fun d i => mergeFeatures d (pages i).features) acc)) := by
  intro fuel
  induction fuel with
  | zero => intro page acc k h1 h2 h3 _ _; omega
  | succ fuel ih =>
      intro page acc k hsum hpk hk hz hnz
      by_cases hpage : page = k
      · subst hpage
        simp [queryLoop, hz, List.range']
      · have hlt : page < k := by omega
        obtain ⟨m, hm⟩ : ∃ m, k - page = m + 1 := ⟨k - page - 1, by omega⟩
        have hnz0 : ¬(pages page).itemsPerPage = 0 := hnz page le_rfl hlt
        have h999 : page ≠ 999 := by omega
        have ihe := ih (page + 1) (mergeFeatures acc (pages page).features) k
          (by omega) (by omega) hk hz (fun i hi1 hi2 => hnz i (by omega) hi2)
        have hm2 : k - (page + 1) = m := by omega
        rw [hm2] at ihe
        simp [queryLoop, hnz0, h999, ihe, hm, List.range'_succ]

/-- Claim C3 (confirmed): when the first page reporting zero items has index
`k` (necessarily below the 1000-page window the loop examines), the loop
requests pages 1 to k+1, stops at that page merging none of its features,
and returns the mapping accumulated from the earlier pages. -/
theorem query_stops_at_first_empty_page (url : String) (pages : Nat → Page) (k : Nat)
    (hk : k < 1000) (hz : (pages k).itemsPerPage = 0)
    (hfirst : ∀ i, i < k → (pages i).itemsPerPage ≠ 0) :
    queryPages url pages =
      ((List.range (k + 1)).map (fun i => url ++ "&page=" ++ toString (i + 1)),
       .ok ((List.range k).foldl (fun d i => mergeFeatures d (pages i).features) [])) := by
  have h := queryLoop_stop url pages 1000 0 [] k (by omega) (by omega) hk hz
    (fun i _ h2 => hfirst i h2)
  rw [queryPages, h, List.range_eq_range', List.range_eq_range']
  simp

/-- Claim C3, witness: one nonempty page, then a page reporting zero items
whose feature list is nonetheless nonempty; the run stops there and merges
nothing from it. -/
theorem query_stops_at_first_empty_page_witness :
    queryPages "u" (fun i => if i = 0 then ⟨1, [⟨"a", "1"⟩]⟩ else ⟨0, [⟨"zzz", "x"⟩]⟩) =
      ((List.range 2).map (fun i => "u" ++ "&page=" ++ toString (i + 1)),
       .ok ((List.range 1).foldl
         (fun d i => mergeFeatures d
           ((fun i => if i = 0 then (⟨1, [⟨"a", "1"⟩]⟩ : Page)
             else ⟨0, [⟨"zzz", "x"⟩]⟩) i).features) [])) :=
  query_stops_at_first_empty_page "u"
    (fun i => if i = 0 then ⟨1, [⟨"a", "1"⟩]⟩ else ⟨0, [⟨"zzz", "x"⟩]⟩) 1
    (by omega) (by decide)
    (fun i hi => by
      have h : i = 0 := by omega
      subst h
      decide)

theorem find?_append {α : Type} (p : α → Bool) :
    ∀ l1 l2 : List α, (l1 ++ l2).find? p =
      match l1.find? p with
      | some a => some a
      | none => l2.find? p
  | [], l2 => by simp
  | a :: l1, l2 => by
      cases hpa : p a with
      | true => simp [List.find?_cons, hpa]
      | false => simp [List.find?_cons, hpa, find?_append p l1 l2]

theorem dictGet_insert : ∀ (d : Dict) (k : String) (v : Feature) (x : String),
    dictGet (dictInsert d k v) x = if x = k then some v else dictGet d x
  | [], k, v, x => by
      by_cases hxk : x = k
      · simp [dictInsert, dictGet, hxk]
      · have hkx : ¬k = x := fun h => hxk h.symm
        simp [dictInsert, dictGet, hxk, hkx]
  | e :: d, k, v, x => by
      by_cases hek : e.1 = k
      · rw [dictInsert, if_pos hek]
        by_cases hxk : x = k
        · simp [dictGet, hxk]
        · have hkx : ¬k = x := fun h => hxk h.symm
          have hex : ¬e.1 = x := fun h => hkx (hek.symm.trans h)
          simp [dictGet, hkx, hex, hxk]
      · rw [dictInsert, if_neg hek]
        by_cases hex : e.1 = x
        · have hxk : ¬x = k := fun h => hek (hex.trans h)
          simp [dictGet, hex, hxk]
        · simp [dictGet, hex, dictGet_insert d k v x]

theorem mem_keys_insert : ∀ (d : Dict) (k : String) (v : Feature) (x : String),
    x ∈ (dictInsert d k v).map Prod.fst ↔ x = k ∨ x ∈ d.map Prod.fst
  | [], k, v, x => by simp [dictInsert]
  | e :: d, k, v, x => by
      by_cases hek : e.1 = k
      · rw [dictInsert, if_pos hek]
        simp only [List.map_cons, List.mem_cons, hek]
        tauto
      · rw [dictInsert, if_neg hek]
        simp only [List.map_cons, List.mem_cons, mem_keys_insert d k v x]
        tauto

theorem keys_nodup_insert : ∀ (d : Dict) (k : String) (v : Feature),
    (d.map Prod.fst).Nodup → ((dictInsert d k v).map Prod.fst).Nodup
  | [], k, v, _ => by simp [dictInsert]
  | e :: d, k, v, h => by
      simp only [List.map_cons, List.nodup_cons] at h
      by_cases hek : e.1 = k
      · rw [dictInsert, if_pos hek]
        simp only [List.map_cons, List.nodup_cons]
        exact ⟨hek ▸ h.1, h.2⟩
      · rw [dictInsert, if_neg hek]
        simp only [List.map_cons, List.nodup_cons]
        refine ⟨?_, keys_nodup_insert d k v h.2⟩
        rw [mem_keys_insert]
        rintro (h1 | h2)
        · exact hek h1
        · exact h.1 h2

theorem keys_nodup_merge : ∀ (fs : List Feature) (d : Dict),
    (d.map Prod.fst).Nodup → ((mergeFeatures d fs).map Prod.fst).Nodup
  | [], _, h => h
  | f :: fs, d, h => keys_nodup_merge fs (dictInsert d f.id f) (keys_nodup_insert d f.id f h)

theorem mem_keys_merge : ∀ (fs : List Feature) (d : Dict) (x : String),
    x ∈ (mergeFeatures d fs).map Prod.fst ↔ x ∈ fs.map Feature.id ∨ x ∈ d.map Prod.fst
  | [], d, x => by simp [mergeFeatures]
  | f :: fs, d, x => by
      have ih := mem_keys_merge fs (dictInsert d f.id f) x
      show x ∈ (mergeFeatures (dictInsert d f.id f) fs).map Prod.fst ↔ _
      rw [ih, mem_keys_insert]
      simp only [List.map_cons, List.mem_cons]
      tauto

theorem dictGet_merge : ∀ (fs : List Feature) (d : Dict) (x : String),
    dictGet (mergeFeatures d fs) x =
      match fs.reverse.find? (fun f => f.id = x) with
      | some f => some f
      | none => dictGet d x
  | [], d, x => by simp [mergeFeatures]
  | f :: fs, d, x => by
      have ih := dictGet_merge fs (dictInsert d f.id f) x
      show dictGet (mergeFeatures (dictInsert d f.id f) fs) x = _
      rw [ih, List.reverse_cons, find?_append]
      cases hf : fs.reverse.find? (fun g => g.id = x) with
      | some g => rfl
      | none =>
          simp only [dictGet_insert, List.find?_singleton]
          by_cases hfx : f.id = x
          · simp [hfx]
          · have hxf : ¬x = f.id := fun h => hfx h.symm
            simp [hfx, hxf]

theorem filter_key_len : ∀ (d : Dict) (x : String),
    (d.map Prod.fst).Nodup → x ∈ d.map Prod.fst →
    (d.filter (fun e => e.1 = x)).length = 1
  | [], x, _, hx => by simp at hx
  | e :: d, x, hnd, hx => by
      simp only [List.map_cons, List.nodup_cons] at hnd
      by_cases hex : e.1 = x
      · have hxd : x ∉ d.map Prod.fst := hex ▸ hnd.1
        have hnil : d.filter (fun e => e.1 = x) = [] := by
          rw [List.filter_eq_nil_iff]
          intro a ha hax
          exact hxd (List.mem_map.mpr ⟨a, ha, by simpa using hax⟩)
        simp [List.filter_cons, hex, hnil]
      · have hx2 : x ∈ d.map Prod.fst := by
          rcases List.mem_cons.mp hx with h | h
          · exact absurd h.symm hex
          · exact h
        simp [List.filter_cons, hex, filter_key_len d x hnd.2 hx2]

/-- All features the loop merges when the first empty page has index `k`: the
feature lists of pages 0 to k-1, concatenated in request order. -/
def allFeatures (pages : Nat → Page) (k : Nat) : List Feature :=
  ((List.range k).map (fun i => (pages i).features)).flatten

theorem mergeFeatures_append (d : Dict) (fs gs : List Feature) :
    mergeFeatures d (fs ++ gs) = mergeFeatures (mergeFeatures d fs) gs := by
  simp [mergeFeatures, List.foldl_append]

theorem foldl_merge_flatten (pages : Nat → Page) :
    ∀ (l : List Nat) (d : Dict),
    l.foldl (fun d i => mergeFeatures d (pages i).features) d =
      mergeFeatures d ((l.map (fun i => (pages i).features)).flatten)
  | [], d => rfl
  | i :: l, d => by
      simp only [List.foldl_cons, List.map_cons, List.flatten_cons]
      rw [mergeFeatures_append]
      exact foldl_merge_flatten pages l (mergeFeatures d (pages i).features)

/-- Claim C9 (confirmed): when the run terminates normally (first empty page
at index `k`), the returned mapping holds exactly one entry for any id that
occurred among the merged pages, and that entry is the last feature with that
id in merge order - so of two pages carrying the same id, the later page's
record wins. -/
theorem query_last_write_wins (url : String) (pages : Nat → Page) (k : Nat) (x : String)
    (hk : k < 1000) (hz : (pages k).itemsPerPage = 0)
    (hfirst : ∀ i, i < k → (pages i).itemsPerPage ≠ 0)
    (hx : x ∈ (allFeatures pages k).map Feature.id) :
    ∃ D, (queryPages url pages).2 = .ok D ∧
      (D.filter (fun e => e.1 = x)).length = 1 ∧
      dictGet D x = (allFeatures pages k).reverse.find? (fun f => f.id = x) := by
  have h := queryLoop_stop url pages 1000 0 [] k (by omega) (by omega) hk hz
    (fun i _ h2 => hfirst i h2)
  have h2 : (queryPages url pages).2 =
      .ok ((List.range k).foldl (fun d i => mergeFeatures d (pages i).features) []) := by
    rw [queryPages, h]
    simp [List.range_eq_range']
  rw [foldl_merge_flatten] at h2
  have h3 : (queryPages url pages).2 = .ok (mergeFeatures [] (allFeatures pages k)) := h2
  refine ⟨mergeFeatures [] (allFeatures pages k), h3, ?_, ?_⟩
  · exact filter_key_len _ x (keys_nodup_merge _ _ (by simp))
      ((mem_keys_merge _ _ x).mpr (.inl hx))
  · rw [dictGet_merge]
    cases hf : (allFeatures pages k).reverse.find? (fun f => f.id = x) with
    | some g => rfl
    | none => rfl

/-- Claim C9, witness: pages 0 and 1 both carry a feature with id `a`; the
run keeps one entry for `a`, holding page 1's record. -/
theorem query_last_write_wins_witness :
    ∃ D, (queryPages "u" (fun i => if i = 0 then ⟨1, [⟨"a", "v1"⟩]⟩
        else if i = 1 then ⟨1, [⟨"a", "v2"⟩]⟩ else ⟨0, []⟩)).2 = .ok D ∧
      (D.filter (fun e => e.1 = "a")).length = 1 ∧
      dictGet D "a" = (allFeatures (fun i => if i = 0 then ⟨1, [⟨"a", "v1"⟩]⟩
        else if i = 1 then ⟨1, [⟨"a", "v2"⟩]⟩ else ⟨0, []⟩) 2).reverse.find?
        (fun f => f.id = "a") :=
  query_last_write_wins "u"
    (fun i => if i = 0 then ⟨1, [⟨"a", "v1"⟩]⟩
      else if i = 1 then ⟨1, [⟨"a", "v2"⟩]⟩ else ⟨0, []⟩) 2 "a"
    (by omega) (by decide)
    (fun i hi => by
      have h : i = 0 ∨ i = 1 := by omega
      rcases h with rfl | rfl <;> decide)
    (by decide)

example :
    (allFeatures (fun i => if i = 0 then ⟨1, [⟨"a", "v1"⟩]⟩
      else if i = 1 then ⟨1, [⟨"a", "v2"⟩]⟩ else ⟨0, []⟩) 2).reverse.find?
      (fun f => f.id = "a") = some ⟨"a", "v2"⟩ := by decide
